import Mathlib

/-!
Verification of the billing core of django-debits
(`src/payee/payee_base/models.py`) against its natural-language
specification.

Dates are modelled as proleptic Gregorian calendar dates, mirroring
Python `datetime.date`.  Arithmetic of `dateutil.relativedelta` is
modelled by `RelDelta` (calendar months applied first, then days, with
day-of-month clamping), matching the library's behaviour on dates.
-/

namespace Debits

/-- Gregorian leap-year test, as in Python `calendar.isleap`. -/
def isLeap (y : Int) : Bool :=
  (y % 4 == 0 && y % 100 != 0) || y % 400 == 0

/-- Length of a month of the Gregorian calendar.  Months outside 1..12 do
not occur in valid dates; the value 31 there is arbitrary. -/
def daysInMonth (y : Int) : Nat → Nat
  | 1 => 31
  | 2 => if isLeap y then 29 else 28
  | 3 => 31
  | 4 => 30
  | 5 => 31
  | 6 => 30
  | 7 => 31
  | 8 => 31
  | 9 => 30
  | 10 => 31
  | 11 => 30
  | 12 => 31
  | _ => 31

/-- Model of Python `datetime.date`. -/
structure Date where
  year : Int
  month : Nat
  day : Nat
  deriving DecidableEq

/-- Validity of a calendar date (Python `date` objects are always valid). -/
def Date.Valid (d : Date) : Prop :=
  1 ≤ d.month ∧ d.month ≤ 12 ∧ 1 ≤ d.day ∧ d.day ≤ daysInMonth d.year d.month

instance (d : Date) : Decidable d.Valid :=
  inferInstanceAs (Decidable (_ ∧ _ ∧ _ ∧ _))

/-- Model of Python `date` comparison `a <= b` (lexicographic on year, month, day). -/
def Date.le (a b : Date) : Prop :=
  a.year < b.year ∨
    (a.year = b.year ∧ (a.month < b.month ∨ (a.month = b.month ∧ a.day ≤ b.day)))

/-- Model of Python `date` comparison `a < b`. -/
def Date.lt (a b : Date) : Prop :=
  a.year < b.year ∨
    (a.year = b.year ∧ (a.month < b.month ∨ (a.month = b.month ∧ a.day < b.day)))

instance (a b : Date) : Decidable (Date.le a b) :=
  inferInstanceAs (Decidable (_ ∨ _))

instance (a b : Date) : Decidable (Date.lt a b) :=
  inferInstanceAs (Decidable (_ ∨ _))

/-- Boolean form of `Date.le`, used inside Boolean-valued model functions. -/
def Date.leB (a b : Date) : Bool := decide (Date.le a b)

/-- Model of Python `max` on two dates: the second argument wins only when
it is strictly greater. -/
def pyMax (a b : Date) : Date := if Date.lt a b then b else a

/-- Successor day (model of `d + timedelta(days=1)` on a valid date). -/
def Date.nextDay (d : Date) : Date :=
  if d.day < daysInMonth d.year d.month then ⟨d.year, d.month, d.day + 1⟩
  else if d.month < 12 then ⟨d.year, d.month + 1, 1⟩
  else ⟨d.year + 1, 1, 1⟩

/-- Predecessor day (model of `d - timedelta(days=1)` on a valid date). -/
def Date.prevDay (d : Date) : Date :=
  if 1 < d.day then ⟨d.year, d.month, d.day - 1⟩
  else if 1 < d.month then ⟨d.year, d.month - 1, daysInMonth d.year (d.month - 1)⟩
  else ⟨d.year - 1, 12, 31⟩

/-- Adding `n` days to a date. -/
def Date.addDays (d : Date) : Nat → Date
  | 0 => d
  | n + 1 => (Date.nextDay d).addDays n

/-- Subtracting `n` days from a date. -/
def Date.subDays (d : Date) : Nat → Date
  | 0 => d
  | n + 1 => (Date.prevDay d).subDays n

/-- Adding a signed number of days to a date. -/
def Date.addDaysInt (d : Date) (n : Int) : Date :=
  if 0 ≤ n then d.addDays n.toNat else d.subDays (-n).toNat

/-- Index of the month of a date on the infinite month line. -/
def Date.monthIndex (d : Date) : Int :=
  d.year * 12 + (d.month : Int) - 1

/-- Adding a signed number of calendar months, clamping the day of month to
the length of the target month: the semantics of
`dateutil.relativedelta(months=n)` applied to a date. -/
def Date.addMonths (d : Date) (n : Int) : Date :=
  let t := d.monthIndex + n
  let y := t / 12
  let m := (t % 12).toNat + 1
  ⟨y, m, min d.day (daysInMonth y m)⟩

/-- Units of `Period` (models.py lines 50-53: UNIT_DAYS .. UNIT_YEARS). -/
inductive PeriodUnit
  | days
  | weeks
  | months
  | years
  deriving DecidableEq

/-- Source translation of the composite field `Period` (models.py lines 49-68). -/
structure Period where
  unit : PeriodUnit
  count : Int
  deriving DecidableEq

/-- Model of a `dateutil.relativedelta` value as used by this code: a
month component and a day component.  Adding it to a date applies the
months first (with day clamping), then the days, which is the library's
evaluation order; a `years=n` delta behaves as `12*n` months. -/
structure RelDelta where
  months : Int
  days : Int
  deriving DecidableEq

/-- Source translation of `period_to_delta` (models.py lines 76-82). -/
def period_to_delta (p : Period) : RelDelta :=
  match p.unit with
  | .days => ⟨0, p.count⟩
  | .weeks => ⟨0, 7 * p.count⟩
  | .months => ⟨p.count, 0⟩
  | .years => ⟨12 * p.count, 0⟩

/-- Model of `date + relativedelta`. -/
def Date.addDelta (d : Date) (r : RelDelta) : Date :=
  (d.addMonths r.months).addDaysInt r.days

/-- Model of `date - relativedelta`: Python negates the delta and adds it. -/
def Date.subDelta (d : Date) (r : RelDelta) : Date :=
  (d.addMonths (-r.months)).addDaysInt (-r.days)

/-- Days before the month `m` within year `y` (helper of `toOrdinal`). -/
def daysBeforeMonth (y : Int) (m : Nat) : Nat :=
  (List.range (m - 1)).foldl (fun acc i => acc + daysInMonth y (i + 1)) 0

/-- Model of Python `date.toordinal` (proleptic Gregorian ordinal); `a - b`
on Python dates yields a timedelta of `toOrdinal a - toOrdinal b` days. -/
def Date.toOrdinal (d : Date) : Int :=
  365 * (d.year - 1) + (d.year - 1) / 4 - (d.year - 1) / 100 +
    (d.year - 1) / 400 + (daysBeforeMonth d.year d.month : Int) + (d.day : Int)

/-! ### Decimal strings and Python string helpers -/

/-- Decimal digit character. -/
def digitChar : Nat → Char
  | 0 => '0'
  | 1 => '1'
  | 2 => '2'
  | 3 => '3'
  | 4 => '4'
  | 5 => '5'
  | 6 => '6'
  | 7 => '7'
  | 8 => '8'
  | _ => '9'

/-- Recognizer of ASCII decimal digits. -/
def isDigitChar (c : Char) : Bool :=
  48 ≤ c.toNat && c.toNat ≤ 57

/-- Value of a list of digit characters, most significant first. -/
def digitsVal (l : List Char) : Nat :=
  l.foldl (fun a c => a * 10 + (c.toNat - 48)) 0

/-- Parse of a nonempty all-digit character list. -/
def parseDigits (l : List Char) : Option Nat :=
  if l ≠ [] ∧ l.all isDigitChar then some (digitsVal l) else none

/-- Digits of `n`, least significant first; the fuel argument is an upper
bound on the recursion depth (any fuel above `n` is enough). -/
def natToRevDigitsAux : Nat → Nat → List Char
  | 0, _ => []
  | fuel + 1, n =>
    if n < 10 then [digitChar n]
    else digitChar (n % 10) :: natToRevDigitsAux fuel (n / 10)

/-- Decimal rendering of a natural number (model of Python `str` on a
nonnegative int). -/
def natToStr (n : Nat) : String :=
  String.mk (natToRevDigitsAux (n + 1) n).reverse

/-- Model of Python `str` on an int. -/
def intToStr (i : Int) : String :=
  if i < 0 then "-" ++ natToStr (-i).toNat else natToStr i.toNat

/-- Partial model of the library primitive Python `int(s)`: an optional
single leading sign followed by ASCII decimal digits.  The full `int`
additionally strips surrounding whitespace and accepts underscore digit
separators and non-ASCII decimal digits, so this function is only used
where the parsed field is a canonical `str(pk)` rendering, on which the
two agree; statements that quantify over arbitrary inputs take the parser
as an abstract function instead (see `pk_from_custom_with`). -/
def parsePyInt (s : String) : Option Int :=
  match s.data with
  | [] => none
  | c :: rest =>
    if c = '-' then (parseDigits rest).map (fun n => -(n : Int))
    else if c = '+' then (parseDigits rest).map (fun n => (n : Int))
    else (parseDigits (c :: rest)).map (fun n => (n : Int))

/-- Splitting off the part before the first occurrence of `sep`, when one
exists. -/
def breakAtSep (sep : Char) : List Char → Option (List Char × List Char)
  | [] => none
  | c :: cs =>
    if c = sep then some ([], cs)
    else
      match breakAtSep sep cs with
      | none => none
      | some (a, b) => some (c :: a, b)

/-- Model of Python `s.split(sep, maxsplit)` for a one-character separator:
at most `maxsplit` splits are performed, empty fields are kept. -/
def pysplit (sep : Char) : Nat → List Char → List (List Char)
  | 0, s => [s]
  | n + 1, s =>
    match breakAtSep sep s with
    | none => [s]
    | some (a, b) => a :: pysplit sep n b

/-- Python `custom.split(' ', 2)` on a string. -/
def pysplitStr (s : String) : List String :=
  (pysplit ' ' 2 s.data).map String.mk

/-! ### Transaction identity (models.py lines 104-123)

The ambient Django settings used by the code are modelled as an explicit
configuration value.  `hmac.new(SECRET_KEY, msg).hexdigest()` is a library
primitive; it is modelled as an abstract function `macHex` from the message
to the hex digest, the secret key being fixed by the configuration. -/

structure PayConfig where
  /-- settings.PAYMENTS_REALM -/
  realm : String
  /-- message to hex digest of `hmac.new(settings.SECRET_KEY.encode(), message).hexdigest()` -/
  macHex : String → String

/-- Source translation of `BaseTransaction.custom_from_pk` (models.py
lines 104-109). -/
def custom_from_pk (cfg : PayConfig) (pk : Int) : String :=
  cfg.realm ++ " " ++ intToStr pk ++ " " ++ cfg.macHex ("payid " ++ intToStr pk)

/-- Source translation of `BaseTransaction.pk_from_custom` (models.py
lines 111-123), with the library primitive `int` passed as an abstract
function `pyInt` (its `ValueError` is the `none` case).
`BaseTransaction.DoesNotExist` is modelled as `none`.
`r = custom.split(' ', 2)` always yields between 1 and 3 fields, so the
source's `len(r) != 3` test is the wildcard arm of the match. -/
def pk_from_custom_with (pyInt : String → Option Int) (cfg : PayConfig)
    (custom : String) : Option Int :=
  match pysplitStr custom with
  | [a, b, c] =>
    if a ≠ cfg.realm then none
    else
      match pyInt b with
      | none => none
      | some pk =>
        if c ≠ cfg.macHex ("payid " ++ intToStr pk) then none else some pk
  | _ => none

/-- `BaseTransaction.pk_from_custom` with `int` instantiated by the
partial model `parsePyInt`; adequate wherever the pk field under the MAC
check is a canonical `str(pk)` rendering. -/
def pk_from_custom (cfg : PayConfig) (custom : String) : Option Int :=
  pk_from_custom_with parsePyInt cfg custom

/-! ### Item state (models.py lines 161-434)

The Django model rows are modelled as plain records; the record store is a
list of records.  Notification rendering and delivery is an external
collaborator, so a dispatched notification is modelled as the data bag
handed to it. -/

/-- Fields of `SimpleItem` used by `is_paid` (models.py lines 218-229). -/
structure SimpleItemState where
  paid : Bool
  gratis : Bool
  blocked : Bool
  deriving DecidableEq

/-- Source translation of `SimpleItem.is_paid` (models.py lines 228-229). -/
def is_paid (s : SimpleItemState) : Bool :=
  (s.paid || s.gratis) && !s.blocked

/-- Fields of `SubscriptionItem` (with the `Item` base) used by the
verified operations.  `due_payment_date` is a non-nullable column with a
default of today, so it is a plain `Date`; `payment_deadline` and
`creation_date` are nullable.  `active_subscription` and
`old_subscription` hold the primary key of the linked `Subscription`. -/
structure SubItemState where
  pk : Nat
  product_name : String
  gratis : Bool
  blocked : Bool
  trial : Bool
  creation_date : Option Date
  due_payment_date : Date
  payment_deadline : Option Date
  grace_period : Period
  payment_period : Period
  trial_period : Period
  subinvoice : Nat
  reminders_sent : Nat
  /-- stray instance attribute created by the `transaction.reminders_set = ...`
  assignments in the reminder passes; it is distinct from the model column
  `reminders_sent` and is never read back by any query -/
  reminders_set : Option Nat
  active_subscription : Option Nat
  old_subscription : Option Nat
  deriving DecidableEq

/-- Source translation of `SubscriptionItem.is_active` (models.py lines
254-257), with today's date passed explicitly. -/
def is_active (today : Date) (s : SubItemState) : Bool :=
  ((match s.payment_deadline with
    | some d => Date.leB today d
    | none => false) || s.gratis) && !s.blocked

/-- Source translation of `SubscriptionItem.set_payment_date` (models.py
lines 294-296). -/
def set_payment_date (date : Date) (s : SubItemState) : SubItemState :=
  { s with
    due_payment_date := date
    payment_deadline := some (date.addDelta (period_to_delta s.grace_period)) }

/-- Source translation of `SubscriptionItem.day_needs_adjustment`
(models.py lines 265-269). -/
def day_needs_adjustment (period : Period) (date : Date) : Bool :=
  (period.unit == PeriodUnit.months && 29 ≤ date.day) ||
    (period.unit == PeriodUnit.years && date.month == 2 && date.day == 29)

/-- The `while period_end.day != 1` loop of `do_adjust_dates` (models.py
lines 288-290), with fuel; `none` marks fuel exhaustion (shown never to
happen on valid dates). -/
def advanceLoop : Nat → Date → Option Date
  | 0, _ => none
  | fuel + 1, d => if d.day = 1 then some d else advanceLoop fuel d.nextDay

/-- Source translation of `SubscriptionItem.do_adjust_dates` (models.py
lines 286-292).  The local `period` timedelta of the source is written but
never read (its only use is commented out), so it is omitted. -/
def do_adjust_dates (period_end : Date) (s : SubItemState) : Option SubItemState :=
  (advanceLoop 64 period_end).map (fun pe => set_payment_date pe s)

/-- Local variable `period_end` of `adjust_dates` (models.py lines
279-282): the trial end computed from the creation date (today for not
yet saved records), raised to the due date. -/
def trial_period_end (today : Date) (s : SubItemState) : Date :=
  pyMax ((s.creation_date.getD today).addDelta (period_to_delta s.trial_period))
    s.due_payment_date

/-- Source translation of `SubscriptionItem.adjust_dates` (models.py lines
277-284).  The column `due_payment_date` is non-nullable, so the source's
`if self.due_payment_date:` truthiness guard always holds here. -/
def adjust_dates (today : Date) (s : SubItemState) : Option SubItemState :=
  if day_needs_adjustment s.trial_period (trial_period_end today s) then
    do_adjust_dates (trial_period_end today s) s
  else
    some s

/-- Configuration consumed by `cancel_subscription_email`:
`settings.PAYMENTS_HOST` and `reverse(settings.PROLONG_PAYMENT_VIEW, args=[pk])`
(the URL resolver is an external collaborator, modelled as a function of
the primary key). -/
structure CancelConfig where
  host : String
  prolongUrl : Nat → String

/-- Data bag of the "subscription canceled" notification handed to the
template renderer (models.py lines 312-317). -/
structure CancelEmail where
  product : String
  url : String
  days_before : Int
  deriving DecidableEq

/-- Source translation of `SubscriptionItem.cancel_subscription_email`
(models.py lines 309-317); `days_before = (self.due_payment_date -
datetime.date.today()).days`. -/
def cancel_subscription_email (cfg : CancelConfig) (today : Date)
    (s : SubItemState) : CancelEmail :=
  { product := s.product_name
    url := cfg.host ++ cfg.prolongUrl s.pk
    days_before := s.due_payment_date.toOrdinal - today.toOrdinal }

/-- Source translation of `SubscriptionItem.cancel_subscription` (models.py
lines 302-307): the single conditional update
`filter(pk=self.pk).update(active_subscription=None, subinvoice=F('subinvoice') + 1)`
applied to the record store, and the notification emitted when
`old_subscription` is unset. -/
def cancel_subscription (cfg : CancelConfig) (today : Date)
    (db : List SubItemState) (self : SubItemState) :
    List SubItemState × Option CancelEmail :=
  (db.map fun it =>
    if it.pk = self.pk then
      { it with active_subscription := none, subinvoice := it.subinvoice + 1 }
    else it,
   if self.old_subscription = none then
     some (cancel_subscription_email cfg today self)
   else none)

/-- Source translation of `ProlongItem.refund_payment` (models.py lines
432-434), acting on the parent `SubscriptionItem`; `prolong` is the
`ProlongItem`'s period. -/
def refund_payment (prolong : Period) (parent : SubItemState) : SubItemState :=
  set_payment_date
    (parent.due_payment_date.subDelta (period_to_delta prolong)) parent

/-! ### Invoice ids (models.py lines 125-158)

For invoice ids only the item graph matters: an item's primary key, its
`subinvoice` counter and its optional `old_subscription` link, together
with, for each `Subscription` primary key, the item of that subscription's
transaction (the source's `old_subscription.basetransaction.item`). -/

/-- Item fields consumed by `invoice_id` and `subinvoice`. -/
structure InvItem where
  pk : Nat
  subinvoice : Nat
  old_subscription : Option Nat
  deriving DecidableEq

/-- Resolution environment: for a `Subscription` primary key, the item of
its transaction. -/
structure SubEnv where
  subItem : Nat → InvItem

/-- Source translation of `BaseTransaction.invoiced_item` (models.py lines
130-133) for a transaction whose item is `item`: one step through the
`old_subscription` link (the link is not followed recursively). -/
def invoiced_item (env : SubEnv) (item : InvItem) : InvItem :=
  match item.old_subscription with
  | some s => env.subItem s
  | none => item

/-- Source translation of `SubscriptionTransaction.subinvoice` (models.py
lines 151-152). -/
def subscription_subinvoice (env : SubEnv) (item : InvItem) : Nat :=
  (invoiced_item env item).subinvoice

/-- Source translation of `SubscriptionTransaction.invoice_id` (models.py
lines 154-158). -/
def subscription_invoice_id (cfg : PayConfig) (env : SubEnv) (item : InvItem) : String :=
  if item.old_subscription.isSome then
    cfg.realm ++ " " ++ natToStr item.pk ++ "-" ++
      natToStr (subscription_subinvoice env item) ++ "-u"
  else
    cfg.realm ++ " " ++ natToStr item.pk ++ "-" ++
      natToStr (subscription_subinvoice env item)

/-- Source translation of `SimpleTransaction.invoice_id` (models.py lines
145-146) for a transaction whose item has primary key `pk`. -/
def simple_invoice_id (cfg : PayConfig) (pk : Nat) : String :=
  cfg.realm ++ " p-" ++ natToStr pk

/-- Follows the words of the spec for `subinvoice`: resolve through the
`old_subscription` chain, of any length, back to the original
transaction's item (fuel bounds the chain length).  This definition exists
only to be compared with the source translation `invoiced_item`. -/
def invoiced_item_chain (env : SubEnv) : Nat → InvItem → InvItem
  | 0, item => item
  | fuel + 1, item =>
    match item.old_subscription with
    | some s => invoiced_item_chain env fuel (env.subItem s)
    | none => item

/-! ### Reminder scheduler (models.py lines 319-424)

Each pass issues a fresh query against the record store and, for every
matching row, assigns `transaction.reminders_set = k` (note the name:
the model column is `reminders_sent`), saves the row, and hands a
notification to the template renderer.  The store is threaded through the
six passes of one `send_reminders` run; a dispatched notification is
recorded as the pair of the item's primary key and the template name. -/

/-- Reminder lead times: `settings.PAYMENTS_DAYS_BEFORE_DUE_REMIND` and
`settings.PAYMENTS_DAYS_BEFORE_TRIAL_END_REMIND`. -/
structure RemindConfig where
  daysBeforeDue : Nat
  daysBeforeTrialEnd : Nat

/-- Notification handed to the renderer: target item and template name. -/
structure Notice where
  pk : Nat
  template : String
  deriving DecidableEq

/-- Filter of `send_regular_before_due_reminders` (models.py line 335). -/
def before_due_filter (reminder_date : Date) (wantTrial : Bool) (it : SubItemState) : Bool :=
  decide (it.reminders_sent < 3) && Date.leB it.due_payment_date reminder_date &&
    it.trial == wantTrial

/-- Filter of `send_regular_due_reminders` (models.py line 350). -/
def due_filter (reminder_date : Date) (wantTrial : Bool) (it : SubItemState) : Bool :=
  decide (it.reminders_sent < 2) && Date.leB it.due_payment_date reminder_date &&
    it.trial == wantTrial

/-- Filter of `send_regular_deadline_reminders` (models.py line 364); a
null `payment_deadline` never satisfies the `__lte` lookup. -/
def deadline_filter (reminder_date : Date) (wantTrial : Bool) (it : SubItemState) : Bool :=
  decide (it.reminders_sent < 1) &&
    (match it.payment_deadline with
     | some d => Date.leB d reminder_date
     | none => false) &&
    it.trial == wantTrial

/-- One reminder pass: every row matched by `filt` gets the assignment
`reminders_set := k` (the stray attribute, not the queried column) and a
notification with template `tmpl`. -/
def reminderPass (filt : SubItemState → Bool) (k : Nat) (tmpl : String)
    (db : List SubItemState) : List SubItemState × List Notice :=
  (db.map fun it => if filt it then { it with reminders_set := some k } else it,
   (db.filter filt).map fun it => ⟨it.pk, tmpl⟩)

/-- Source translation of `send_regular_before_due_reminders` (models.py
lines 331-345). -/
def send_regular_before_due_reminders (cfg : RemindConfig) (today : Date)
    (db : List SubItemState) : List SubItemState × List Notice :=
  reminderPass (before_due_filter (today.addDays cfg.daysBeforeDue) false) 3
    "payee/email/before-due-remind.html" db

/-- Source translation of `send_regular_due_reminders` (models.py lines
347-359). -/
def send_regular_due_reminders (today : Date)
    (db : List SubItemState) : List SubItemState × List Notice :=
  reminderPass (due_filter today false) 2 "payee/email/due-remind.html" db

/-- Source translation of `send_regular_deadline_reminders` (models.py
lines 361-373). -/
def send_regular_deadline_reminders (today : Date)
    (db : List SubItemState) : List SubItemState × List Notice :=
  reminderPass (deadline_filter today false) 1 "payee/email/deadline-remind.html" db

/-- Source translation of `send_trial_before_due_reminders` (models.py
lines 382-396). -/
def send_trial_before_due_reminders (cfg : RemindConfig) (today : Date)
    (db : List SubItemState) : List SubItemState × List Notice :=
  reminderPass (before_due_filter (today.addDays cfg.daysBeforeTrialEnd) true) 3
    "payee/email/before-due-remind.html" db

/-- Source translation of `send_trial_due_reminders` (models.py lines
398-410). -/
def send_trial_due_reminders (today : Date)
    (db : List SubItemState) : List SubItemState × List Notice :=
  reminderPass (due_filter today true) 2 "payee/email/due-remind.html" db

/-- Source translation of `send_trial_deadline_reminders` (models.py lines
412-424). -/
def send_trial_deadline_reminders (today : Date)
    (db : List SubItemState) : List SubItemState × List Notice :=
  reminderPass (deadline_filter today true) 1 "payee/email/deadline-remind.html" db

/-- Source translation of `send_regular_reminders` (models.py lines
324-329): the three regular passes in source order, threading the store. -/
def send_regular_reminders (cfg : RemindConfig) (today : Date)
    (db : List SubItemState) : List SubItemState × List Notice :=
  let r1 := send_regular_before_due_reminders cfg today db
  let r2 := send_regular_due_reminders today r1.1
  let r3 := send_regular_deadline_reminders today r2.1
  (r3.1, r1.2 ++ r2.2 ++ r3.2)

/-- Source translation of `send_trial_reminders` (models.py lines 375-380). -/
def send_trial_reminders (cfg : RemindConfig) (today : Date)
    (db : List SubItemState) : List SubItemState × List Notice :=
  let r1 := send_trial_before_due_reminders cfg today db
  let r2 := send_trial_due_reminders today r1.1
  let r3 := send_trial_deadline_reminders today r2.1
  (r3.1, r1.2 ++ r2.2 ++ r3.2)

/-- Source translation of `send_reminders` (models.py lines 319-322): one
scheduler run. -/
def send_reminders (cfg : RemindConfig) (today : Date)
    (db : List SubItemState) : List SubItemState × List Notice :=
  let r1 := send_regular_reminders cfg today db
  let r2 := send_trial_reminders cfg today r1.1
  (r2.1, r1.2 ++ r2.2)

/-! ### Theorems -/

/-- C10: for every `SimpleItem`, `is_paid()` returns true iff `(paid or
gratis) and not blocked`; in particular a blocked item is reported as not
paid even when `paid` is set or the item is gratis. -/
theorem simpleItem_is_paid_iff (s : SimpleItemState) :
    (is_paid s = true ↔ (s.paid = true ∨ s.gratis = true) ∧ s.blocked = false) ∧
    (s.blocked = true → is_paid s = false) := by
  rcases s with ⟨p, g, b⟩
  cases p <;> cases g <;> cases b <;> decide

/-- Witness for C10 at a blocked, paid, gratis item. -/
theorem simpleItem_is_paid_iff_witness :
    is_paid ⟨true, true, true⟩ = false :=
  (simpleItem_is_paid_iff ⟨true, true, true⟩).2 rfl

/-- C5: for every `SubscriptionItem`, `is_active()` returns true iff
`((payment_deadline is set and today <= payment_deadline) or gratis) and
not blocked`; in particular a blocked item is inactive regardless of every
other field. -/
theorem subscriptionItem_is_active_iff (today : Date) (s : SubItemState) :
    (is_active today s = true ↔
      ((∃ d, s.payment_deadline = some d ∧ Date.le today d) ∨ s.gratis = true) ∧
        s.blocked = false) ∧
    (s.blocked = true → is_active today s = false) := by
  constructor
  · rcases h : s.payment_deadline with _ | d <;>
      simp [is_active, h, Date.leB, Bool.and_eq_true, Bool.or_eq_true,
        decide_eq_true_eq, Bool.not_eq_true']
  · intro hb
    simp [is_active, hb]

/-- Witness for C5 at a blocked item with a far-future deadline. -/
theorem subscriptionItem_is_active_iff_witness :
    is_active ⟨2024, 1, 1⟩
      { pk := 1, product_name := "p", gratis := true, blocked := true,
        trial := false, creation_date := none, due_payment_date := ⟨2024, 1, 1⟩,
        payment_deadline := some ⟨2030, 1, 1⟩, grace_period := ⟨.days, 20⟩,
        payment_period := ⟨.months, 1⟩, trial_period := ⟨.months, 0⟩,
        subinvoice := 1, reminders_sent := 0, reminders_set := none,
        active_subscription := none, old_subscription := none } = false :=
  (subscriptionItem_is_active_iff ⟨2024, 1, 1⟩ _).2 rfl

/-- C8: `cancel_subscription` clears `active_subscription` and increments
`subinvoice` by one on every stored row with the item's primary key,
leaves other rows unchanged, and emits the cancellation notification —
with the product name, the processor-return URL, and the signed number of
days until the due date — exactly when `old_subscription` is unset. -/
theorem cancel_subscription_spec (cfg : CancelConfig) (today : Date)
    (db : List SubItemState) (s : SubItemState) :
    (∀ it ∈ db, it.pk = s.pk →
      { it with active_subscription := none, subinvoice := it.subinvoice + 1 }
        ∈ (cancel_subscription cfg today db s).1) ∧
    (∀ it ∈ db, it.pk ≠ s.pk → it ∈ (cancel_subscription cfg today db s).1) ∧
    (s.old_subscription = none →
      (cancel_subscription cfg today db s).2 =
        some { product := s.product_name,
               url := cfg.host ++ cfg.prolongUrl s.pk,
               days_before := s.due_payment_date.toOrdinal - today.toOrdinal }) ∧
    (s.old_subscription ≠ none → (cancel_subscription cfg today db s).2 = none) := by
  refine ⟨?_, ?_, ?_, ?_⟩
  · intro it hit hpk
    simp only [cancel_subscription, List.mem_map]
    exact ⟨it, hit, by simp [hpk]⟩
  · intro it hit hpk
    simp only [cancel_subscription, List.mem_map]
    exact ⟨it, hit, by simp [hpk]⟩
  · intro h
    simp [cancel_subscription, h, cancel_subscription_email]
  · intro h
    simp [cancel_subscription, h]

/-- Concrete item for the C8 witness. -/
def c8Item : SubItemState :=
  { pk := 4, product_name := "plan", gratis := false, blocked := false,
    trial := false, creation_date := none, due_payment_date := ⟨2024, 3, 1⟩,
    payment_deadline := some ⟨2024, 3, 21⟩, grace_period := ⟨.days, 20⟩,
    payment_period := ⟨.months, 1⟩, trial_period := ⟨.months, 0⟩,
    subinvoice := 1, reminders_sent := 0, reminders_set := none,
    active_subscription := some 9, old_subscription := none }

/-- Witness for C8: cancelling `c8Item` updates its row and emits the
notification (the due date is five days past, so `days_before` is `-5`). -/
theorem cancel_subscription_spec_witness :
    ({ c8Item with active_subscription := none,
                   subinvoice := c8Item.subinvoice + 1 }
       ∈ (cancel_subscription ⟨"https://h", fun pk => "/p/" ++ natToStr pk⟩
            ⟨2024, 3, 6⟩ [c8Item] c8Item).1) ∧
    (cancel_subscription ⟨"https://h", fun pk => "/p/" ++ natToStr pk⟩
        ⟨2024, 3, 6⟩ [c8Item] c8Item).2 =
      some { product := "plan", url := "https://h/p/4", days_before := -5 } := by
  have h := cancel_subscription_spec
    ⟨"https://h", fun pk => "/p/" ++ natToStr pk⟩ ⟨2024, 3, 6⟩ [c8Item] c8Item
  refine ⟨h.1 c8Item (by simp) rfl, ?_⟩
  rw [h.2.2.1 rfl]
  rfl

/-- Concrete scheduler configuration for C1: seven days of due-reminder
lead time. -/
def c1Cfg : RemindConfig := ⟨7, 7⟩

/-- Concrete item for C1: no reminder recorded yet, not in trial, due date
and payment deadline both in the past. -/
def c1Item : SubItemState :=
  { pk := 1, product_name := "plan", gratis := false, blocked := false,
    trial := false, creation_date := none, due_payment_date := ⟨2024, 3, 1⟩,
    payment_deadline := some ⟨2024, 3, 5⟩, grace_period := ⟨.days, 20⟩,
    payment_period := ⟨.months, 1⟩, trial_period := ⟨.months, 0⟩,
    subinvoice := 1, reminders_sent := 0, reminders_set := none,
    active_subscription := none, old_subscription := none }

/-- C1 (code bug): one scheduler run over the single item `c1Item`
dispatches three notifications to it — one per regular tier — and leaves
the persisted watermark `reminders_sent` at 0, because every pass assigns
the misspelled attribute `reminders_set` instead of the queried column
`reminders_sent`; the claim requires at most one notification per run and
a persisted watermark of 1. -/
theorem reminders_run_sends_three_notifications :
    (send_reminders c1Cfg ⟨2024, 3, 10⟩ [c1Item]).2 =
      [⟨1, "payee/email/before-due-remind.html"⟩,
       ⟨1, "payee/email/due-remind.html"⟩,
       ⟨1, "payee/email/deadline-remind.html"⟩] ∧
    (send_reminders c1Cfg ⟨2024, 3, 10⟩ [c1Item]).1 =
      [{ c1Item with reminders_set := some 1 }] := by
  decide

/-- Item graph for the C6 counterexample: subscription 1 was created by a
transaction whose item (pk 2, subinvoice 5) itself replaces subscription 2,
whose transaction's item is pk 3 with subinvoice 7. -/
def c6Env : SubEnv :=
  ⟨fun s => if s = 1 then ⟨2, 5, some 2⟩ else if s = 2 then ⟨3, 7, none⟩ else ⟨0, 0, none⟩⟩

/-- C6 counterexample: on a two-link `old_subscription` chain, the code's
`subinvoice()` resolves only one hop (yielding 5, the subinvoice of the
intermediate item), while resolving the chain back to the original
transaction's item would yield 7; the invoice id is built from the one-hop
value. -/
theorem subinvoice_stops_after_one_hop :
    subscription_subinvoice c6Env ⟨1, 9, some 1⟩ = 5 ∧
    (invoiced_item_chain c6Env 10 ⟨1, 9, some 1⟩).subinvoice = 7 ∧
    subscription_invoice_id ⟨"r", fun _ => ""⟩ c6Env ⟨1, 9, some 1⟩ = "r 1-5-u" := by
  decide

/-- C6 (amended): `invoice_id()` of a `SimpleTransaction` with item pk `n`
is `"<realm> p-n"`; `invoice_id()` of a `SubscriptionTransaction` is
`"<realm> <item_pk>-<subinvoice()>"` with `"-u"` appended exactly when the
item has an `old_subscription`; and `subinvoice()` resolves one step of
the `old_subscription` link — to the subinvoice counter of the old
subscription's transaction's item — not through a chain of any length. -/
theorem invoice_id_spec (cfg : PayConfig) (env : SubEnv) (item : InvItem) (pk : Nat) :
    simple_invoice_id cfg pk = cfg.realm ++ " p-" ++ natToStr pk ∧
    (item.old_subscription = none →
      subscription_invoice_id cfg env item =
        cfg.realm ++ " " ++ natToStr item.pk ++ "-" ++ natToStr item.subinvoice) ∧
    (∀ s, item.old_subscription = some s →
      subscription_invoice_id cfg env item =
        cfg.realm ++ " " ++ natToStr item.pk ++ "-" ++
          natToStr (env.subItem s).subinvoice ++ "-u") := by
  refine ⟨rfl, ?_, ?_⟩
  · intro h
    simp [subscription_invoice_id, subscription_subinvoice, invoiced_item, h]
  · intro s h
    simp [subscription_invoice_id, subscription_subinvoice, invoiced_item, h]

/-- Witness for C6 at a replacement item (pk 4) whose old subscription's
item carries subinvoice 7, and at a simple item with pk 7. -/
theorem invoice_id_spec_witness :
    subscription_invoice_id ⟨"R", fun _ => ""⟩ c6Env ⟨4, 3, some 2⟩ = "R 4-7-u" ∧
    simple_invoice_id ⟨"R", fun _ => ""⟩ 7 = "R p-7" := by
  have h := invoice_id_spec ⟨"R", fun _ => ""⟩ c6Env ⟨4, 3, some 2⟩ 7
  refine ⟨?_, ?_⟩
  · rw [h.2.2 2 rfl]; decide
  · rw [h.1]; decide

/-! ### Lemmas on decimal strings -/

theorem digitChar_isDigit (k : Nat) (h : k < 10) :
    isDigitChar (digitChar k) = true := by
  interval_cases k <;> decide

theorem digitChar_val (k : Nat) (h : k < 10) :
    (digitChar k).toNat - 48 = k := by
  interval_cases k <;> decide

theorem digitsVal_concat (l : List Char) (c : Char) :
    digitsVal (l ++ [c]) = digitsVal l * 10 + (c.toNat - 48) := by
  simp [digitsVal, List.foldl_append]

theorem natToRevDigitsAux_spec (fuel : Nat) :
    ∀ n, n < fuel →
      natToRevDigitsAux fuel n ≠ [] ∧
      (natToRevDigitsAux fuel n).all isDigitChar = true ∧
      digitsVal (natToRevDigitsAux fuel n).reverse = n := by
  induction fuel with
  | zero => intro n hn; omega
  | succ fuel ih =>
    intro n hn
    by_cases h10 : n < 10
    · simp only [natToRevDigitsAux, if_pos h10]
      refine ⟨by simp, by simp [digitChar_isDigit n h10], ?_⟩
      simp [digitsVal, digitChar_val n h10]
    · have hq : n / 10 < fuel := by omega
      obtain ⟨hne, hall, hval⟩ := ih (n / 10) hq
      simp only [natToRevDigitsAux, if_neg h10]
      refine ⟨by simp, ?_, ?_⟩
      · simp [hall, digitChar_isDigit (n % 10) (by omega)]
      · rw [List.reverse_cons, digitsVal_concat, hval,
          digitChar_val (n % 10) (by omega)]
        omega

theorem natToStr_data_digits (n : Nat) :
    (natToStr n).data ≠ [] ∧ (natToStr n).data.all isDigitChar = true ∧
      digitsVal (natToStr n).data = n := by
  obtain ⟨hne, hall, hval⟩ := natToRevDigitsAux_spec (n + 1) n (by omega)
  refine ⟨by simpa [natToStr] using hne, ?_, ?_⟩
  · simpa [natToStr, List.all_reverse] using hall
  · simpa [natToStr] using hval

theorem parseDigits_natToStr (n : Nat) :
    parseDigits (natToStr n).data = some n := by
  obtain ⟨hne, hall, hval⟩ := natToStr_data_digits n
  simp [parseDigits, hne, hall, hval]

theorem isDigitChar_ne (c : Char) (h : isDigitChar c = true) :
    c ≠ '-' ∧ c ≠ '+' ∧ c ≠ ' ' := by
  refine ⟨?_, ?_, ?_⟩ <;> (intro he; subst he; simp [isDigitChar] at h)

theorem parsePyInt_intToStr (pk : Int) :
    parsePyInt (intToStr pk) = some pk := by
  by_cases hneg : pk < 0
  · have hmk : (intToStr pk).data = '-' :: (natToStr (-pk).toNat).data := by
      simp [intToStr, if_pos hneg, String.data_append]
    simp [parsePyInt, hmk, parseDigits_natToStr]
    omega
  · have hmk : (intToStr pk).data = (natToStr pk.toNat).data := by
      simp [intToStr, if_neg hneg]
    obtain ⟨hne, hall, _⟩ := natToStr_data_digits pk.toNat
    rcases hd : (natToStr pk.toNat).data with _ | ⟨c, rest⟩
    · exact absurd hd hne
    · have hc : isDigitChar c = true := by
        have := List.all_eq_true.mp hall c (by rw [hd]; exact List.mem_cons_self c rest)
        exact this
      obtain ⟨hcm, hcp, _⟩ := isDigitChar_ne c hc
      simp only [parsePyInt, hmk, hd, if_neg hcm, if_neg hcp]
      rw [← hd, parseDigits_natToStr]
      simp
      omega

theorem space_not_mem_intToStr (pk : Int) : ' ' ∉ (intToStr pk).data := by
  intro hmem
  by_cases hneg : pk < 0
  · rw [intToStr, if_pos hneg, String.data_append] at hmem
    rcases List.mem_append.mp hmem with h | h
    · simp at h
    · obtain ⟨_, hall, _⟩ := natToStr_data_digits (-pk).toNat
      have := List.all_eq_true.mp hall ' ' h
      simp [isDigitChar] at this
  · rw [intToStr, if_neg hneg] at hmem
    obtain ⟨_, hall, _⟩ := natToStr_data_digits pk.toNat
    have := List.all_eq_true.mp hall ' ' hmem
    simp [isDigitChar] at this

/-! ### Lemmas on splitting -/

theorem breakAtSep_append (sep : Char) (l1 l2 : List Char) (h : sep ∉ l1) :
    breakAtSep sep (l1 ++ sep :: l2) = some (l1, l2) := by
  induction l1 with
  | nil => simp [breakAtSep]
  | cons c cs ih =>
    have hc : c ≠ sep := fun he => h (he ▸ List.mem_cons_self c cs)
    have hcs : sep ∉ cs := fun hm => h (List.mem_cons_of_mem c hm)
    simp only [List.cons_append, breakAtSep, if_neg hc]
    rw [show cs.append (sep :: l2) = cs ++ sep :: l2 from rfl, ih hcs]

theorem pysplit_two_seps (realm pkstr macstr : List Char)
    (h1 : ' ' ∉ realm) (h2 : ' ' ∉ pkstr) :
    pysplit ' ' 2 (realm ++ ' ' :: (pkstr ++ ' ' :: macstr)) =
      [realm, pkstr, macstr] := by
  simp only [pysplit, breakAtSep_append ' ' realm _ h1,
    breakAtSep_append ' ' pkstr _ h2]

theorem pysplitStr_custom (cfg : PayConfig) (pk : Int)
    (hrealm : ' ' ∉ cfg.realm.data) :
    pysplitStr (custom_from_pk cfg pk) =
      [cfg.realm, intToStr pk, cfg.macHex ("payid " ++ intToStr pk)] := by
  have hdata : (custom_from_pk cfg pk).data =
      cfg.realm.data ++ ' ' ::
        ((intToStr pk).data ++ ' ' ::
          (cfg.macHex ("payid " ++ intToStr pk)).data) := by
    simp [custom_from_pk, String.data_append]
  rw [pysplitStr, hdata,
    pysplit_two_seps _ _ _ hrealm (space_not_mem_intToStr pk)]
  rfl

/-- C2 (amended): for every primary key `pk >= 0`, every secret-key MAC
function and every configured realm that contains no space character (as
the space-delimited 3-field encoding requires), decoding the encoded
transaction identity returns the same pk:
`pk_from_custom (custom_from_pk pk) = pk`. -/
theorem pk_from_custom_roundtrip (cfg : PayConfig) (pk : Int)
    (hrealm : ' ' ∉ cfg.realm.data) (_hpk : 0 ≤ pk) :
    pk_from_custom cfg (custom_from_pk cfg pk) = some pk := by
  unfold pk_from_custom pk_from_custom_with
  rw [pysplitStr_custom cfg pk hrealm]
  simp [parsePyInt_intToStr]

/-- Witness for C2 at realm `"r"`, pk 7 and a constant MAC function. -/
theorem pk_from_custom_roundtrip_witness :
    pk_from_custom ⟨"r", fun _ => "m"⟩ (custom_from_pk ⟨"r", fun _ => "m"⟩ 7) =
      some 7 :=
  pk_from_custom_roundtrip ⟨"r", fun _ => "m"⟩ 7 (by decide) (by decide)

/-- C2 counterexample: with the realm `"a b"` (a realm string containing a
space) the round trip fails already at pk 0 — the first space-split field
is `"a"`, which does not match the realm — so the claim does not hold for
every configured realm string. -/
theorem pk_from_custom_roundtrip_fails_for_space_realm :
    pk_from_custom ⟨"a b", fun _ => "m"⟩
      (custom_from_pk ⟨"a b", fun _ => "m"⟩ 0) = none := by
  decide

/-- C3 (amended): `pk_from_custom` fails (with the typed local failure
`BaseTransaction.DoesNotExist`, modelled as `none`, never retried) iff the
input does not split into exactly 3 fields under `split(' ', 2)`, or the
first field differs from the configured realm, or `int` raises on the
second field (Python `int` accepts more than non-negative numerals — a
sign, surrounding whitespace, underscore separators — so in particular
negative pks decode rather than fail), or the third field differs from
the MAC recomputed from the parsed pk; in every other case it returns the
decoded pk.  The characterization is proved with the `int` primitive as
an arbitrary function `pyInt`, so it holds for the real parser whatever
its extension. -/
theorem pk_from_custom_none_iff (pyInt : String → Option Int)
    (cfg : PayConfig) (custom : String) :
    (pk_from_custom_with pyInt cfg custom = none ↔
      (pysplitStr custom).length ≠ 3 ∨
      ∃ a b c, pysplitStr custom = [a, b, c] ∧
        (a ≠ cfg.realm ∨ pyInt b = none ∨
          ∃ pk, pyInt b = some pk ∧
            c ≠ cfg.macHex ("payid " ++ intToStr pk))) ∧
    (∀ pk, pk_from_custom_with pyInt cfg custom = some pk →
      ∃ a b c, pysplitStr custom = [a, b, c] ∧ a = cfg.realm ∧
        pyInt b = some pk ∧
        c = cfg.macHex ("payid " ++ intToStr pk)) := by
  rcases hsplit : pysplitStr custom with _ | ⟨a, _ | ⟨b, _ | ⟨c, _ | ⟨d, t⟩⟩⟩⟩
  · simp [pk_from_custom_with, hsplit]
  · simp [pk_from_custom_with, hsplit]
  · simp [pk_from_custom_with, hsplit]
  · refine ⟨⟨?_, ?_⟩, ?_⟩
    · intro hnone
      by_cases ha : a = cfg.realm
      · rcases hb : pyInt b with _ | pk
        · exact Or.inr ⟨a, b, c, rfl, Or.inr (Or.inl hb)⟩
        · by_cases hcc : c = cfg.macHex ("payid " ++ intToStr pk)
          · simp only [pk_from_custom_with, hsplit] at hnone
            simp [ha, hb, hcc] at hnone
          · exact Or.inr ⟨a, b, c, rfl, Or.inr (Or.inr ⟨pk, hb, hcc⟩)⟩
      · exact Or.inr ⟨a, b, c, rfl, Or.inl ha⟩
    · intro hrhs
      simp only [pk_from_custom_with, hsplit]
      rcases hrhs with hlen | ⟨x, y, z, heq, hcase⟩
      · simp at hlen
      · injection heq with hx htl
        injection htl with hy htl2
        injection htl2 with hz _
        subst hx hy hz
        rcases hcase with h | h | ⟨pk, hb, hcc⟩
        · simp [h]
        · by_cases ha : a = cfg.realm <;> simp [ha, h]
        · by_cases ha : a = cfg.realm <;> simp [ha, hb, hcc]
    · intro pk hpk
      simp only [pk_from_custom_with, hsplit] at hpk
      by_cases ha : a = cfg.realm
      · rcases hb : pyInt b with _ | pk'
        · simp [ha, hb] at hpk
        · by_cases hcc : c = cfg.macHex ("payid " ++ intToStr pk')
          · simp [ha, hb, hcc] at hpk
            subst hpk
            exact ⟨a, b, c, rfl, ha, hb, hcc⟩
          · simp [ha, hb, hcc] at hpk
      · simp [ha] at hpk
  · simp [pk_from_custom_with, hsplit]

/-- C3 counterexample: the input `"r -1 m"` (realm `"r"`, constant MAC
`"m"`) has a second field that is not a valid non-negative integer, so the
claim requires the decode to fail; the code instead decodes it to the
negative pk `-1`, because Python `int` accepts a sign.  On the signed
ASCII numeral `"-1"` the partial parser model agrees exactly with
Python `int`. -/
theorem pk_from_custom_accepts_negative_pk :
    pk_from_custom ⟨"r", fun _ => "m"⟩ "r -1 m" = some (-1) ∧
      (-1 : Int) < 0 := by
  decide

/-! ### Calendar lemmas -/

theorem Date.le_rfl (d : Date) : Date.le d d := by
  simp [Date.le]

theorem Date.le_of_lt {a b : Date} (h : Date.lt a b) : Date.le a b := by
  rcases a with ⟨ya, ma, da⟩
  rcases b with ⟨yb, mb, db⟩
  simp only [Date.le, Date.lt] at *
  omega

theorem Date.le_trans {a b c : Date} (h1 : Date.le a b) (h2 : Date.le b c) :
    Date.le a c := by
  rcases a with ⟨ya, ma, da⟩
  rcases b with ⟨yb, mb, db⟩
  rcases c with ⟨yc, mc, dc⟩
  simp only [Date.le] at *
  omega

theorem daysInMonth_ge (y : Int) (m : Nat) : 28 ≤ daysInMonth y m := by
  unfold daysInMonth
  split <;> first | omega | (split <;> omega)

theorem daysInMonth_le (y : Int) (m : Nat) : daysInMonth y m ≤ 31 := by
  unfold daysInMonth
  split <;> first | omega | (split <;> omega)

theorem Date.lt_nextDay (d : Date) : Date.lt d d.nextDay := by
  rcases d with ⟨y, m, day⟩
  unfold Date.nextDay
  split
  · unfold Date.lt
    dsimp only
    omega
  · split <;> (unfold Date.lt; dsimp only; omega)

theorem Date.le_addDays (d : Date) (n : Nat) : Date.le d (d.addDays n) := by
  induction n generalizing d with
  | zero => exact Date.le_rfl d
  | succ n ih =>
    exact Date.le_trans (Date.le_of_lt (Date.lt_nextDay d)) (ih d.nextDay)

theorem Date.addDaysInt_zero (d : Date) : d.addDaysInt 0 = d := by
  simp [Date.addDaysInt, Date.addDays]

theorem Date.le_addDaysInt (d : Date) (n : Int) (h : 0 ≤ n) :
    Date.le d (d.addDaysInt n) := by
  rw [Date.addDaysInt, if_pos h]
  exact Date.le_addDays d n.toNat

theorem Date.valid_mk {y : Int} {m day : Nat} (h1 : 1 ≤ m) (h2 : m ≤ 12)
    (h3 : 1 ≤ day) (h4 : day ≤ daysInMonth y m) :
    Date.Valid ⟨y, m, day⟩ :=
  ⟨h1, h2, h3, h4⟩

theorem Date.valid_nextDay {d : Date} (h : d.Valid) : d.nextDay.Valid := by
  rcases d with ⟨y, m, day⟩
  obtain ⟨h1, h2, h3, h4⟩ := h
  dsimp only at h1 h2 h3 h4
  have g1 := daysInMonth_ge y (m + 1)
  have g2 := daysInMonth_ge (y + 1) 1
  unfold Date.nextDay
  dsimp only
  split
  · next hlt => exact Date.valid_mk h1 h2 (by omega) (by omega)
  · split
    · next hm => exact Date.valid_mk (by omega) (by omega) (by omega) (by omega)
    · exact Date.valid_mk (by omega) (by omega) (by omega) (by omega)

theorem Date.valid_prevDay {d : Date} (h : d.Valid) : d.prevDay.Valid := by
  rcases d with ⟨y, m, day⟩
  obtain ⟨h1, h2, h3, h4⟩ := h
  dsimp only at h1 h2 h3 h4
  have g1 := daysInMonth_ge y (m - 1)
  have g2 : daysInMonth (y - 1) 12 = 31 := rfl
  unfold Date.prevDay
  dsimp only
  split
  · next hgt => exact Date.valid_mk h1 h2 (by omega) (by omega)
  · split
    · next hm => exact Date.valid_mk (by omega) (by omega) (by omega) (le_refl _)
    · exact Date.valid_mk (by omega) (by omega) (by omega) (by omega)

theorem Date.valid_addDays {d : Date} (h : d.Valid) (n : Nat) :
    (d.addDays n).Valid := by
  induction n generalizing d with
  | zero => exact h
  | succ n ih => exact ih (Date.valid_nextDay h)

theorem Date.valid_subDays {d : Date} (h : d.Valid) (n : Nat) :
    (d.subDays n).Valid := by
  induction n generalizing d with
  | zero => exact h
  | succ n ih => exact ih (Date.valid_prevDay h)

theorem Date.valid_addDaysInt {d : Date} (h : d.Valid) (n : Int) :
    (d.addDaysInt n).Valid := by
  unfold Date.addDaysInt
  split
  · exact Date.valid_addDays h _
  · exact Date.valid_subDays h _

theorem Date.monthIndex_addMonths (d : Date) (n : Int) :
    (d.addMonths n).monthIndex = d.monthIndex + n := by
  rcases d with ⟨y, m, day⟩
  show ((y * 12 + (m : Int) - 1 + n) / 12) * 12 +
      (((((y * 12 + (m : Int) - 1 + n) % 12).toNat + 1) : Nat) : Int) - 1 =
    y * 12 + (m : Int) - 1 + n
  omega

theorem Date.valid_addMonths {d : Date} (h : d.Valid) (n : Int) :
    (d.addMonths n).Valid := by
  rcases d with ⟨y, m, day⟩
  obtain ⟨h1, h2, h3, h4⟩ := h
  dsimp only at h1 h2 h3 h4
  have hge := daysInMonth_ge ((y * 12 + (m : Int) - 1 + n) / 12)
    (((y * 12 + (m : Int) - 1 + n) % 12).toNat + 1)
  unfold Date.addMonths Date.monthIndex
  dsimp only
  exact Date.valid_mk (by omega) (by omega) (by omega) (by omega)

theorem Date.addMonths_zero {d : Date} (h : d.Valid) : d.addMonths 0 = d := by
  rcases d with ⟨y, m, day⟩
  obtain ⟨h1, h2, h3, h4⟩ := h
  have h1' : 1 ≤ m := h1
  have h2' : m ≤ 12 := h2
  have h4' : day ≤ daysInMonth y m := h4
  have hy : (y * 12 + (m : Int) - 1 + 0) / 12 = y := by omega
  have hm : ((y * 12 + (m : Int) - 1 + 0) % 12).toNat + 1 = m := by omega
  show (⟨(y * 12 + (m : Int) - 1 + 0) / 12,
      ((y * 12 + (m : Int) - 1 + 0) % 12).toNat + 1,
      min day (daysInMonth ((y * 12 + (m : Int) - 1 + 0) / 12)
        (((y * 12 + (m : Int) - 1 + 0) % 12).toNat + 1))⟩ : Date) = ⟨y, m, day⟩
  rw [hy, hm]
  rw [Nat.min_eq_left h4']

theorem Date.lt_of_monthIndex_lt {d1 d2 : Date}
    (hm1 : 1 ≤ d1.month ∧ d1.month ≤ 12) (hm2 : 1 ≤ d2.month ∧ d2.month ≤ 12)
    (h : d1.monthIndex < d2.monthIndex) : Date.lt d1 d2 := by
  rcases d1 with ⟨y1, m1, day1⟩
  rcases d2 with ⟨y2, m2, day2⟩
  simp only [Date.monthIndex, Date.lt] at *
  omega

theorem Date.le_addMonths {d : Date} (h : d.Valid) (n : Int) (hn : 0 ≤ n) :
    Date.le d (d.addMonths n) := by
  rcases eq_or_lt_of_le hn with he | hlt
  · rw [← he, Date.addMonths_zero h]
    exact Date.le_rfl d
  · refine Date.le_of_lt (Date.lt_of_monthIndex_lt ⟨h.1, h.2.1⟩ ?_ ?_)
    · have hv := Date.valid_addMonths h n
      exact ⟨hv.1, hv.2.1⟩
    · rw [Date.monthIndex_addMonths]
      omega

theorem Date.valid_addDelta {d : Date} (h : d.Valid) (r : RelDelta) :
    (d.addDelta r).Valid :=
  Date.valid_addDaysInt (Date.valid_addMonths h r.months) r.days

theorem Date.valid_subDelta {d : Date} (h : d.Valid) (r : RelDelta) :
    (d.subDelta r).Valid :=
  Date.valid_addDaysInt (Date.valid_addMonths h (-r.months)) (-r.days)

theorem Date.le_addPeriod {d : Date} (h : d.Valid) (p : Period)
    (hc : 0 ≤ p.count) : Date.le d (d.addDelta (period_to_delta p)) := by
  rcases p with ⟨u, c⟩
  have hc' : (0 : Int) ≤ c := hc
  cases u <;> simp only [period_to_delta, Date.addDelta]
  · rw [Date.addMonths_zero h]
    exact Date.le_addDaysInt d c hc'
  · rw [Date.addMonths_zero h]
    exact Date.le_addDaysInt d (7 * c) (by omega)
  · rw [Date.addDaysInt_zero]
    exact Date.le_addMonths h c hc'
  · rw [Date.addDaysInt_zero]
    exact Date.le_addMonths h (12 * c) (by omega)

theorem valid_pyMax {a b : Date} (ha : a.Valid) (hb : b.Valid) :
    (pyMax a b).Valid := by
  unfold pyMax
  split
  · exact hb
  · exact ha

theorem advanceLoop_le : ∀ (fuel : Nat) (d r : Date),
    advanceLoop fuel d = some r → Date.le d r := by
  intro fuel
  induction fuel with
  | zero => intro d r h; simp [advanceLoop] at h
  | succ n ih =>
    intro d r h
    unfold advanceLoop at h
    split at h
    · cases h
      exact Date.le_rfl d
    · exact Date.le_trans (Date.le_of_lt (Date.lt_nextDay d)) (ih d.nextDay r h)

theorem advanceLoop_terminates : ∀ (k fuel : Nat) (d : Date), d.Valid →
    daysInMonth d.year d.month + 1 - d.day ≤ k → k < fuel →
    ∃ r, advanceLoop fuel d = some r ∧ r.day = 1 ∧ r.Valid := by
  intro k
  induction k with
  | zero =>
    intro fuel d hv hk _
    obtain ⟨_, _, _, h4⟩ := hv
    omega
  | succ k ih =>
    intro fuel d hv hk hf
    rcases fuel with _ | fuel
    · omega
    by_cases hd1 : d.day = 1
    · exact ⟨d, by rw [advanceLoop, if_pos hd1], hd1, hv⟩
    · rw [advanceLoop, if_neg hd1]
      by_cases hlt : d.day < daysInMonth d.year d.month
      · have hvn : d.nextDay.Valid := Date.valid_nextDay hv
        have hnd : d.nextDay = ⟨d.year, d.month, d.day + 1⟩ := by
          rw [Date.nextDay, if_pos hlt]
        refine ih fuel d.nextDay hvn ?_ (by omega)
        rw [hnd]
        dsimp only
        omega
      · have hday1 : d.nextDay.day = 1 := by
          rw [Date.nextDay, if_neg hlt]
          split <;> rfl
        rcases fuel with _ | fuel
        · omega
        · exact ⟨d.nextDay, by rw [advanceLoop, if_pos hday1], hday1,
            Date.valid_nextDay hv⟩

theorem advanceLoop_total (d : Date) (hv : d.Valid) :
    ∃ r, advanceLoop 64 d = some r ∧ r.day = 1 ∧ r.Valid := by
  have hle := daysInMonth_le d.year d.month
  obtain ⟨h1, h2, h3, h4⟩ := hv
  exact advanceLoop_terminates 32 64 d ⟨h1, h2, h3, h4⟩ (by omega) (by omega)

/-- C9: `refund_payment` on a `ProlongItem` with period `prolong` moves the
parent's `due_payment_date` back by `delta(prolong)` through
`set_payment_date`, which recomputes `payment_deadline` as the new due
date plus `delta(grace_period)`; hence the deadline is at or after the due
date whenever `grace_period.count >= 0`, and for `prolong = (Months, 1)`
the due date moves back by exactly one calendar month. -/
theorem refund_payment_spec (prolong : Period) (s : SubItemState)
    (hd : s.due_payment_date.Valid) (hg : 0 ≤ s.grace_period.count) :
    (refund_payment prolong s).due_payment_date =
      s.due_payment_date.subDelta (period_to_delta prolong) ∧
    (refund_payment prolong s).payment_deadline =
      some ((refund_payment prolong s).due_payment_date.addDelta
        (period_to_delta s.grace_period)) ∧
    Date.le (refund_payment prolong s).due_payment_date
      ((refund_payment prolong s).due_payment_date.addDelta
        (period_to_delta s.grace_period)) ∧
    (prolong = ⟨.months, 1⟩ →
      (refund_payment prolong s).due_payment_date =
        s.due_payment_date.addMonths (-1)) := by
  refine ⟨rfl, rfl, ?_, ?_⟩
  · exact Date.le_addPeriod
      (Date.valid_subDelta hd (period_to_delta prolong)) s.grace_period hg
  · intro hp
    subst hp
    show (s.due_payment_date.addMonths (-1)).addDaysInt (-0) =
      s.due_payment_date.addMonths (-1)
    rw [show (-0 : Int) = 0 by omega, Date.addDaysInt_zero]

/-- Concrete parent item for the C9 witness: due 2024-03-31, twenty days
of grace. -/
def c9Item : SubItemState :=
  { pk := 2, product_name := "plan", gratis := false, blocked := false,
    trial := false, creation_date := none, due_payment_date := ⟨2024, 3, 31⟩,
    payment_deadline := some ⟨2024, 4, 20⟩, grace_period := ⟨.days, 20⟩,
    payment_period := ⟨.months, 1⟩, trial_period := ⟨.months, 0⟩,
    subinvoice := 1, reminders_sent := 0, reminders_set := none,
    active_subscription := some 9, old_subscription := none }

/-- Witness for C9: refunding a one-month prolongation of `c9Item` moves
the due date back one calendar month (2024-03-31 to 2024-02-29, the
clamped leap-February end) and the recomputed deadline is at or after it. -/
theorem refund_payment_spec_witness :
    Date.le (refund_payment ⟨.months, 1⟩ c9Item).due_payment_date
      ((refund_payment ⟨.months, 1⟩ c9Item).due_payment_date.addDelta
        (period_to_delta c9Item.grace_period)) ∧
    (refund_payment ⟨.months, 1⟩ c9Item).due_payment_date =
      (⟨2024, 3, 31⟩ : Date).addMonths (-1) ∧
    (refund_payment ⟨.months, 1⟩ c9Item).due_payment_date = ⟨2024, 2, 29⟩ := by
  have h := refund_payment_spec ⟨.months, 1⟩ c9Item (by decide) (by decide)
  exact ⟨h.2.2.1, h.2.2.2 rfl, by decide⟩

/-- C7: `adjust_dates` computes `period_end = max(creation_date +
delta(trial_period), due_payment_date)`; `day_needs_adjustment` holds
exactly when the trial period is in months and the day is at least 29, or
in years and the date is Feb 29; when it holds, the date is pushed forward
day by day to day-of-month 1 (the loop terminates within its fuel) and the
result is installed through `set_payment_date`; otherwise the record is
left unchanged. -/
theorem adjust_dates_spec (today : Date) (s : SubItemState)
    (hc : (s.creation_date.getD today).Valid) (hd : s.due_payment_date.Valid) :
    (day_needs_adjustment s.trial_period (trial_period_end today s) = true ↔
      (s.trial_period.unit = PeriodUnit.months ∧
        29 ≤ (trial_period_end today s).day) ∨
      (s.trial_period.unit = PeriodUnit.years ∧
        (trial_period_end today s).month = 2 ∧
        (trial_period_end today s).day = 29)) ∧
    (day_needs_adjustment s.trial_period (trial_period_end today s) = true →
      ∃ r, advanceLoop 64 (trial_period_end today s) = some r ∧ r.day = 1 ∧
        Date.le (trial_period_end today s) r ∧
        adjust_dates today s = some (set_payment_date r s)) ∧
    (day_needs_adjustment s.trial_period (trial_period_end today s) = false →
      adjust_dates today s = some s) := by
  refine ⟨?_, ?_, ?_⟩
  · simp only [day_needs_adjustment, Bool.or_eq_true, Bool.and_eq_true,
      beq_iff_eq, decide_eq_true_eq, and_assoc]
  · intro h
    have hvpe : (trial_period_end today s).Valid :=
      valid_pyMax (Date.valid_addDelta hc (period_to_delta s.trial_period)) hd
    obtain ⟨r, hr, hr1, _⟩ := advanceLoop_total _ hvpe
    refine ⟨r, hr, hr1, advanceLoop_le _ _ _ hr, ?_⟩
    rw [adjust_dates, if_pos h, do_adjust_dates, hr]
    rfl
  · intro h
    rw [adjust_dates, if_neg (by simp [h])]

/-- Concrete item for the C7 witness: created 2024-01-31 with a one-month
trial, so the trial ends 2024-02-29 and the month-end rule fires. -/
def c7Item : SubItemState :=
  { pk := 3, product_name := "plan", gratis := false, blocked := false,
    trial := true, creation_date := some ⟨2024, 1, 31⟩,
    due_payment_date := ⟨2024, 1, 1⟩, payment_deadline := none,
    grace_period := ⟨.days, 20⟩, payment_period := ⟨.months, 1⟩,
    trial_period := ⟨.months, 1⟩, subinvoice := 1, reminders_sent := 0,
    reminders_set := none, active_subscription := none,
    old_subscription := none }

/-- Witness for C7: on `c7Item` the rule fires at 2024-02-29 and the loop
lands on a first of month, installed through `set_payment_date`. -/
theorem adjust_dates_spec_witness :
    ∃ r, advanceLoop 64 (trial_period_end ⟨2024, 3, 10⟩ c7Item) = some r ∧
      r.day = 1 ∧ Date.le (trial_period_end ⟨2024, 3, 10⟩ c7Item) r ∧
      adjust_dates ⟨2024, 3, 10⟩ c7Item = some (set_payment_date r c7Item) :=
  (adjust_dates_spec ⟨2024, 3, 10⟩ c7Item (by decide) (by decide)).2.1
    (by decide)

end Debits
